import Mathlib

/-!
Verification of the OwningView container (`StyleSheetBuf` / `StyleSheet`)
from `src/main.rs`.

Modelling choices:
* The owned heap `String` is modelled by its character content (`List Char`).
* `StyleSheetBuf.source_ptr : *mut String` becomes `Option Buffer`: `some b`
  is a live heap allocation holding `b`, `none` a freed allocation.
* `sheet : Option<StyleSheet>` keeps its `Option` shape.
* The borrowed slice `parsed : &str` of `StyleSheet` is modelled by the
  character content it points at; dereferencing it is modelled by `readParsed`,
  which succeeds only while the backing allocation is live and actually
  contains that content as a contiguous slice.
* The two destructors are modelled as straight-line programs producing an
  event trace (`DropEvent`), so destruction ordering is a statement about
  positions in that trace.
-/

/-- Rust `char::is_whitespace`: the Unicode `White_Space` property. -/
def rustIsWhitespace (c : Char) : Bool :=
  let n := c.toNat
  (0x09 ≤ n && n ≤ 0x0D) || n == 0x20 || n == 0x85 || n == 0xA0 ||
  n == 0x1680 || (0x2000 ≤ n && n ≤ 0x200A) || n == 0x2028 || n == 0x2029 ||
  n == 0x202F || n == 0x205F || n == 0x3000

/-- The owned heap string, modelled by its character content. -/
abbrev Buffer := List Char

/-- Rust `str::trim_start`: remove the longest whitespace run at the front. -/
def rustTrimStart (s : Buffer) : Buffer :=
  s.dropWhile rustIsWhitespace

/-- Rust `str::trim_end`: remove the longest whitespace run at the back. -/
def rustTrimEnd (s : Buffer) : Buffer :=
  (s.reverse.dropWhile rustIsWhitespace).reverse

/-- Rust `str::trim`: remove whitespace at both ends. -/
def rustTrim (s : Buffer) : Buffer :=
  rustTrimEnd (rustTrimStart s)

/-- `struct StyleSheet<'s> { parsed: &'s str }`: the view; its slice is
modelled by the content it refers to. -/
structure StyleSheet where
  parsed : Buffer
deriving DecidableEq

/-- `StyleSheet::parse`: `StyleSheet { parsed: source.trim() }`. -/
def StyleSheet.parse (source : Buffer) : StyleSheet :=
  ⟨rustTrim source⟩

/-- `struct StyleSheetBuf { source_ptr: *mut String, sheet: Option<StyleSheet> }`. -/
structure StyleSheetBuf where
  source_ptr : Option Buffer
  sheet : Option StyleSheet
deriving DecidableEq

/-- `StyleSheetBuf::new`: box the source, leak it to a raw pointer, parse a
view of the whole string, store both. -/
def StyleSheetBuf.new (source : Buffer) : StyleSheetBuf :=
  ⟨some source, some (StyleSheet.parse source)⟩

/-- `StyleSheetBuf::sheet`: the `unwrap_unchecked` read of the `sheet` field,
modelled by the `Option` it reads; defined behaviour needs `isSome`. -/
def StyleSheetBuf.sheetRef (b : StyleSheetBuf) : Option StyleSheet :=
  b.sheet

/-- `impl Deref for StyleSheetBuf`: `fn deref(&self) { self.sheet() }`. -/
def StyleSheetBuf.derefSheet (b : StyleSheetBuf) : Option StyleSheet :=
  b.sheetRef

/-- Calling `sheet()` through `&self`: the returned reference together with
the receiver after the call. -/
def StyleSheetBuf.sheetCall (b : StyleSheetBuf) : Option StyleSheet × StyleSheetBuf :=
  (b.sheetRef, b)

/-- `print_parsed`: prints `sheet.parsed`; modelled as the text written out. -/
def print_parsed (sheet : StyleSheet) : Buffer :=
  sheet.parsed

/-- Observable events during destruction. -/
inductive DropEvent where
  | sheetDropRead (content : Option Buffer)
  | sheetDropDone
  | bufFreed
deriving DecidableEq

/-- `parsed` is a contiguous slice of the allocation content `b`. -/
def isSliceOf (parsed b : Buffer) : Bool :=
  (List.range (b.length + 1)).any fun i => (b.drop i).take parsed.length == parsed

/-- Dereferencing `self.parsed` inside `StyleSheet::drop`: returns the slice
content while the backing allocation is live and contains it, `none` (an
invalid read) otherwise. -/
def readParsed (heap : Option Buffer) (sh : StyleSheet) : Option Buffer :=
  match heap with
  | some b => if isSliceOf sh.parsed b then some sh.parsed else none
  | none => none

/-- `impl Drop for StyleSheet`: reads `self.parsed` for the final print, then
finishes. -/
def StyleSheet.dropEvents (heap : Option Buffer) (sh : StyleSheet) : List DropEvent :=
  [DropEvent.sheetDropRead (readParsed heap sh), DropEvent.sheetDropDone]

/-- First statement of `Drop for StyleSheetBuf`: `drop(self.sheet.take())`. -/
def StyleSheetBuf.dropTakeSheet (b : StyleSheetBuf) : List DropEvent × StyleSheetBuf :=
  match b.sheet with
  | some sh => (StyleSheet.dropEvents b.source_ptr sh, ⟨b.source_ptr, none⟩)
  | none => ([], b)

/-- Second statement of `Drop for StyleSheetBuf`:
`drop(Box::from_raw(self.source_ptr))`, releasing the heap storage. -/
def StyleSheetBuf.dropFreeBuf (b : StyleSheetBuf) : List DropEvent × StyleSheetBuf :=
  ([DropEvent.bufFreed], ⟨none, b.sheet⟩)

/-- `impl Drop for StyleSheetBuf`: drop the sheet, then free the buffer. -/
def StyleSheetBuf.dropRun (b : StyleSheetBuf) : List DropEvent × StyleSheetBuf :=
  let s1 := b.dropTakeSheet
  let s2 := s1.2.dropFreeBuf
  (s1.1 ++ s2.1, s2.2)

/-- Lifecycle phase of a container, per the state machine of the design. -/
inductive LifecyclePhase where
  | uninitialized
  | constructed
  | destroying
  | destroyed
deriving DecidableEq

/-- Phase read off a container state: buffer live and view stored means
constructed; view taken but buffer live means destroying; buffer freed means
destroyed. -/
def StyleSheetBuf.phase (b : StyleSheetBuf) : LifecyclePhase :=
  match b.source_ptr, b.sheet with
  | some _, some _ => LifecyclePhase.constructed
  | some _, none => LifecyclePhase.destroying
  | none, _ => LifecyclePhase.destroyed

/-- `std::fs::read_to_string`, with the file system as a map from paths to
contents; `none` is a failed read. -/
def read_to_string (fs : String → Option Buffer) (path : String) : Option Buffer :=
  fs path

/-- `parse_file`: `.unwrap()` panics on a failed read, modelled as `none`;
only a successful read reaches `StyleSheetBuf::new`. -/
def parse_file (fs : String → Option Buffer) (path : String) : Option StyleSheetBuf :=
  match read_to_string fs path with
  | some source => some (StyleSheetBuf.new source)
  | none => none

/-- `view(construct s)`: the parsed text observed through a freshly
constructed container. -/
def viewOfConstruct (s : Buffer) : Option Buffer :=
  Option.map StyleSheet.parsed (StyleSheetBuf.new s).sheet

/-! Helper lemmas about `dropWhile` and the trim functions. -/

theorem head?_dropWhile_false (p : Char → Bool) (l : List Char) (c : Char)
    (h : (l.dropWhile p).head? = some c) : p c = false := by
  induction l with
  | nil => simp [List.dropWhile] at h
  | cons x xs ih =>
    rw [List.dropWhile_cons] at h
    by_cases hp : p x
    · rw [if_pos hp] at h
      exact ih h
    · rw [if_neg hp] at h
      simp only [List.head?_cons, Option.some.injEq] at h
      subst h
      simpa using hp

theorem dropWhile_eq_self_of_head (p : Char → Bool) (l : List Char)
    (h : ∀ c, l.head? = some c → p c = false) : l.dropWhile p = l := by
  cases l with
  | nil => rfl
  | cons x xs =>
    rw [List.dropWhile_cons, if_neg]
    simp [h x rfl]

theorem dropWhile_dropWhile (p : Char → Bool) (l : List Char) :
    (l.dropWhile p).dropWhile p = l.dropWhile p := by
  apply dropWhile_eq_self_of_head
  intro c hc
  exact head?_dropWhile_false p l c hc

theorem rustTrimEnd_append (m : Buffer) :
    rustTrimEnd m ++ (m.reverse.takeWhile rustIsWhitespace).reverse = m := by
  unfold rustTrimEnd
  rw [← List.reverse_append, List.takeWhile_append_dropWhile, List.reverse_reverse]

theorem head?_rustTrimEnd (m : Buffer) (c : Char)
    (h : (rustTrimEnd m).head? = some c) : m.head? = some c := by
  have hd := rustTrimEnd_append m
  cases he : rustTrimEnd m with
  | nil => rw [he] at h; simp at h
  | cons x xs =>
    rw [he] at hd h
    rw [← hd]
    simpa using h

theorem rustTrimEnd_rustTrimEnd (m : Buffer) :
    rustTrimEnd (rustTrimEnd m) = rustTrimEnd m := by
  unfold rustTrimEnd
  rw [List.reverse_reverse, dropWhile_dropWhile]

theorem dropWhile_rustTrimEnd_dropWhile (l : Buffer) :
    (rustTrimEnd (l.dropWhile rustIsWhitespace)).dropWhile rustIsWhitespace
      = rustTrimEnd (l.dropWhile rustIsWhitespace) := by
  apply dropWhile_eq_self_of_head
  intro c hc
  exact head?_dropWhile_false rustIsWhitespace l c
    (head?_rustTrimEnd (l.dropWhile rustIsWhitespace) c hc)

theorem rustTrim_rustTrim (l : Buffer) : rustTrim (rustTrim l) = rustTrim l := by
  unfold rustTrim rustTrimStart
  rw [dropWhile_rustTrimEnd_dropWhile, rustTrimEnd_rustTrimEnd]

theorem rustTrim_decomposition (s : Buffer) :
    s.takeWhile rustIsWhitespace ++ rustTrim s ++
      ((s.dropWhile rustIsWhitespace).reverse.takeWhile rustIsWhitespace).reverse = s := by
  have h2 := rustTrimEnd_append (s.dropWhile rustIsWhitespace)
  rw [List.append_assoc]
  rw [show rustTrim s = rustTrimEnd (s.dropWhile rustIsWhitespace) from rfl]
  rw [h2, List.takeWhile_append_dropWhile]

theorem isSliceOf_of_eq_append (pre mid post b : Buffer)
    (h : pre ++ mid ++ post = b) : isSliceOf mid b = true := by
  subst h
  unfold isSliceOf
  rw [List.any_eq_true]
  refine ⟨pre.length, ?_, ?_⟩
  · rw [List.mem_range]
    simp only [List.length_append]
    omega
  · rw [List.append_assoc, List.drop_left, List.take_left]
    simp

theorem slice_recover (pre mid post b : Buffer) (h : pre ++ mid ++ post = b) :
    pre.length ≤ pre.length + mid.length ∧
      pre.length + mid.length ≤ b.length ∧
      (b.drop pre.length).take (pre.length + mid.length - pre.length) = mid := by
  subst h
  refine ⟨Nat.le_add_right _ _, ?_, ?_⟩
  · simp only [List.length_append]
    omega
  · rw [Nat.add_sub_cancel_left, List.append_assoc, List.drop_left, List.take_left]

/-- Full drop trace of a freshly constructed container: a valid read of the
trimmed slice, sheet-destructor completion, then the buffer free. -/
theorem dropRun_new_trace (s : Buffer) :
    (StyleSheetBuf.new s).dropRun
      = ([DropEvent.sheetDropRead (some (rustTrim s)), DropEvent.sheetDropDone,
          DropEvent.bufFreed], ⟨none, none⟩) := by
  have hs : isSliceOf (rustTrim s) s = true :=
    isSliceOf_of_eq_append _ _ _ _ (rustTrim_decomposition s)
  simp [StyleSheetBuf.dropRun, StyleSheetBuf.new, StyleSheetBuf.dropTakeSheet,
    StyleSheetBuf.dropFreeBuf, StyleSheet.dropEvents, readParsed, StyleSheet.parse, hs]

/-- C1: for every container destruction, the `StyleSheet` destructor performs
its read of still-valid buffer content (the trimmed slice, read as `some`,
not a dangling read) at trace position 0, completes at position 1, and only
afterwards, at position 2, is the buffer's heap storage released. -/
theorem view_drop_completes_before_buffer_free (s : Buffer) :
    (StyleSheetBuf.new s).dropRun.1.get? 0
        = some (DropEvent.sheetDropRead (some (rustTrim s))) ∧
    (StyleSheetBuf.new s).dropRun.1.get? 1 = some DropEvent.sheetDropDone ∧
    (StyleSheetBuf.new s).dropRun.1.get? 2 = some DropEvent.bufFreed ∧
    (StyleSheetBuf.new s).dropRun.1.length = 3 := by
  rw [dropRun_new_trace]
  exact ⟨rfl, rfl, rfl, rfl⟩

/-- C2: reading the view of a freshly constructed container yields exactly the
input with leading and trailing whitespace removed (the remainder after
stripping a whitespace-only prefix and suffix), and the three concrete
examples of the specification hold. -/
theorem view_of_construct_is_trim (s : Buffer) :
    viewOfConstruct s = some (rustTrim s) ∧
    (∃ p q, p ++ rustTrim s ++ q = s ∧
      p.all rustIsWhitespace = true ∧ q.all rustIsWhitespace = true) ∧
    viewOfConstruct " olá. ".toList = some "olá.".toList ∧
    viewOfConstruct "".toList = some "".toList ∧
    viewOfConstruct "   ".toList = some "".toList := by
  refine ⟨rfl, ⟨_, _, rustTrim_decomposition s, ?_, ?_⟩, by decide, by decide, by decide⟩
  · rw [List.all_eq_true]
    intro x hx
    simpa using List.mem_takeWhile_imp hx
  · rw [List.all_eq_true]
    intro x hx
    rw [List.mem_reverse] at hx
    simpa using List.mem_takeWhile_imp hx

/-- C3: each constructed container follows the one-directional trajectory
Constructed (after `new`) → Destroying (after the sheet is taken and dropped,
buffer still live) → Destroyed (after the buffer is freed), the intermediate
state of `dropRun` being exactly the Destroying one, and in the drop trace
the sheet destructor completes exactly once and the buffer is freed exactly
once. -/
theorem lifecycle_state_machine (s : Buffer) :
    (StyleSheetBuf.new s).phase = LifecyclePhase.constructed ∧
    (StyleSheetBuf.new s).dropTakeSheet.2.phase = LifecyclePhase.destroying ∧
    (StyleSheetBuf.new s).dropTakeSheet.2.dropFreeBuf.2 = (StyleSheetBuf.new s).dropRun.2 ∧
    (StyleSheetBuf.new s).dropRun.2.phase = LifecyclePhase.destroyed ∧
    (StyleSheetBuf.new s).dropRun.1.count DropEvent.sheetDropDone = 1 ∧
    (StyleSheetBuf.new s).dropRun.1.count DropEvent.bufFreed = 1 := by
  rw [dropRun_new_trace]
  refine ⟨rfl, rfl, rfl, rfl, ?_, ?_⟩ <;> simp [List.count_cons]

/-- C4: a constructed container holds the live buffer with exactly the source
content, and its view is a contiguous slice of that buffer: there are valid
indices `i ≤ j ≤ length` such that the stored parsed text is the
drop-`i`-take-`(j-i)` substring of the owned source. -/
theorem view_slice_valid_range (s : Buffer) :
    (StyleSheetBuf.new s).source_ptr = some s ∧
    ∃ i j, i ≤ j ∧ j ≤ s.length ∧
      Option.map StyleSheet.parsed (StyleSheetBuf.new s).sheet
        = some ((s.drop i).take (j - i)) := by
  refine ⟨rfl, ?_⟩
  obtain ⟨h1, h2, h3⟩ := slice_recover _ _ _ _ (rustTrim_decomposition s)
  refine ⟨(s.takeWhile rustIsWhitespace).length,
    (s.takeWhile rustIsWhitespace).length + (rustTrim s).length, h1, h2, ?_⟩
  rw [h3]
  rfl

/-- C5: every container produced by `new` (the only constructor; nothing
mutates it before its destructor) has a `some` sheet field, so the
`unwrap_unchecked` inside `sheet()` never meets `None`. -/
theorem sheet_unwrap_never_none (b : StyleSheetBuf)
    (h : ∃ s, b = StyleSheetBuf.new s) : b.sheetRef.isSome = true := by
  obtain ⟨s, rfl⟩ := h
  rfl

theorem sheet_unwrap_never_none_witness :
    (StyleSheetBuf.new "x".toList).sheetRef.isSome = true :=
  sheet_unwrap_never_none (StyleSheetBuf.new "x".toList) ⟨"x".toList, rfl⟩

/-- C6: construction always succeeds — `new` is total and always stores a
view — and on any all-whitespace input (the empty string included) the
resulting view is the empty string rather than an error. -/
theorem construct_never_fails_empty_view (s : Buffer)
    (h : s.all rustIsWhitespace = true) :
    (StyleSheetBuf.new s).sheet.isSome = true ∧ viewOfConstruct s = some [] := by
  refine ⟨rfl, ?_⟩
  have h1 : s.dropWhile rustIsWhitespace = [] := by
    rw [List.dropWhile_eq_nil_iff]
    intro x hx
    have hx2 := List.all_eq_true.mp h x hx
    simpa using hx2
  simp [viewOfConstruct, StyleSheetBuf.new, StyleSheet.parse, rustTrim,
    rustTrimStart, rustTrimEnd, h1]

theorem construct_never_fails_empty_view_witness :
    (StyleSheetBuf.new "   ".toList).sheet.isSome = true ∧
      viewOfConstruct "   ".toList = some [] :=
  construct_never_fails_empty_view "   ".toList (by decide)

/-- C7: trimming is idempotent through the container interface: when
constructing from `s` gives view `t`, constructing from `t` gives view `t`
again. -/
theorem trim_idempotent (s t : Buffer) (h : viewOfConstruct s = some t) :
    viewOfConstruct t = some t := by
  have hv : viewOfConstruct s = some (rustTrim s) := rfl
  rw [hv] at h
  have ht := Option.some.inj h
  subst ht
  show some (rustTrim (rustTrim s)) = some (rustTrim s)
  rw [rustTrim_rustTrim]

theorem trim_idempotent_witness :
    viewOfConstruct "olá.".toList = some "olá.".toList :=
  trim_idempotent " olá. ".toList "olá.".toList (by decide)

/-- C8: transparent delegation — the `Deref` forwarding returns exactly what
`sheet()` returns, so the read-only observation (`print_parsed`) made
through the container equals the one made on the view directly, both being
the trimmed text. -/
theorem deref_transparent_delegation (s : Buffer) :
    (StyleSheetBuf.new s).derefSheet = (StyleSheetBuf.new s).sheetRef ∧
    Option.map print_parsed (StyleSheetBuf.new s).derefSheet
      = Option.map print_parsed (StyleSheetBuf.new s).sheetRef ∧
    Option.map print_parsed (StyleSheetBuf.new s).derefSheet = some (rustTrim s) :=
  ⟨rfl, rfl, rfl⟩

/-- C9: calling `sheet()` any number of times leaves the container — buffer
content, view, and all state — unchanged, returns the stored view, and the
buffer after a call still holds exactly the original source. -/
theorem sheet_access_no_side_effects (s : Buffer) (n : Nat) :
    Nat.iterate (fun b => (StyleSheetBuf.sheetCall b).2) n (StyleSheetBuf.new s)
      = StyleSheetBuf.new s ∧
    (StyleSheetBuf.new s).sheetCall.1 = some (StyleSheet.parse s) ∧
    (StyleSheetBuf.new s).sheetCall.2.source_ptr = some s := by
  refine ⟨?_, rfl, rfl⟩
  induction n with
  | zero => rfl
  | succ k ih =>
    rw [Function.iterate_succ_apply]
    exact ih

/-- C10: when the upstream file read fails, `parse_file` surfaces the failure
(the `unwrap` panic, modelled as `none`) and no container is ever
constructed — `StyleSheetBuf::new` is only reached on a successful read. -/
theorem file_read_failure_no_container (fs : String → Option Buffer)
    (path : String) (h : read_to_string fs path = none) :
    parse_file fs path = none := by
  simp [parse_file, h]

theorem file_read_failure_no_container_witness :
    parse_file (fun _ => none) "missing.css" = none :=
  file_read_failure_no_container (fun _ => none) "missing.css" rfl
